import Mathlib

/-!
Verification of the scenario-calculator core of `nightrelcalc` (src/main.go).

The Go core is a pure function `compute` over clock strings ("HH:MM") and
decimal-hour inputs (Go `float64`), working in integer minutes.  The shallow
embedding below mirrors the helpers and `compute` from src/main.go:

* Go `int` is modelled as `Int` (no overflow occurs in the modelled domain);
* Go `float64` decimal-hour inputs are modelled as exact rationals `ℚ`;
* Go strings are Lean `String`s; `strings.Split`, `strings.TrimSpace` and
  `strconv.Atoi` are modelled on the character list of the string;
* fallible parsing returns `Option`, and `compute` returns
  `Except CalcError CalcResult`, one error constructor per `return nil, err`
  site of the Go function;
* the Go result holds only formatted strings; the embedded `Scenario` and
  `CalcResult` records additionally keep the integer minute values that the
  source formats into those strings (fields suffixed `Min`), so that claims
  about minutes can be stated directly.
-/

/-- Go `minInt` (src/main.go): smaller of two ints. -/
def minInt (a b : Int) : Int := if a < b then a else b

/-- Go `maxInt` (src/main.go): larger of two ints. -/
def maxInt (a b : Int) : Int := if a > b then a else b

/-- Go `floorDiv` (src/main.go): floored division built from Go's truncating
`/` and `%` (`Int.tdiv` / `Int.tmod`), with the Go guard returning 0 for a
zero divisor.  Go's `(r > 0) != (b > 0)` is rendered as the negated `Iff`. -/
def floorDiv (a b : Int) : Int :=
  if b = 0 then 0
  else
    let q := Int.tdiv a b
    let r := Int.tmod a b
    if r ≠ 0 ∧ ¬ ((0 < r) ↔ (0 < b)) then q - 1 else q

/-- Go `mod` (src/main.go): remainder normalized to the sign of the divisor,
built from Go's truncating `%`. -/
def goMod (a b : Int) : Int :=
  let m := Int.tmod a b
  if m < 0 then m + b else m

/-- For a positive divisor, Go's `floorDiv` is mathematical floor division
(Lean's Euclidean `/` on `Int`), specialized to the only divisor the source
uses, 1440. -/
theorem floorDiv_1440 (a : Int) : floorDiv a 1440 = a / 1440 := by
  unfold floorDiv
  rw [if_neg (by norm_num)]
  dsimp only
  have hqr : 1440 * Int.tdiv a 1440 + Int.tmod a 1440 = a := Int.tdiv_add_tmod a 1440
  have hlt : Int.tmod a 1440 < 1440 := Int.tmod_lt_of_pos a (by norm_num)
  have hneg : Int.tmod (-a) 1440 = -(Int.tmod a 1440) := by
    simp only [Int.tmod_def, Int.neg_tdiv]
    ring
  have hgt : -1440 < Int.tmod a 1440 := by
    have := Int.tmod_lt_of_pos (-a) (show (0:Int) < 1440 by norm_num)
    omega
  split
  · next hcond =>
    obtain ⟨hne, hiff⟩ := hcond
    have hr : ¬ (0 < Int.tmod a 1440) := fun hpos => hiff ⟨fun _ => by norm_num, fun _ => hpos⟩
    omega
  · next hcond =>
    rw [not_and_or] at hcond
    rcases hcond with hr0 | hiff
    · have : Int.tmod a 1440 = 0 := by simpa using hr0
      omega
    · rw [not_not] at hiff
      have : 0 < Int.tmod a 1440 := hiff.mpr (by norm_num)
      omega

/-- Whitespace test used by the `strings.TrimSpace` model: ASCII space and
the control whitespace characters (tab through carriage return). -/
def isSpaceChar (c : Char) : Bool := c = ' ' || (9 ≤ c.toNat && c.toNat ≤ 13)

/-- Model of Go `strings.TrimSpace`: drop whitespace from both ends. -/
def goTrimSpace (s : String) : String :=
  ⟨((s.toList.dropWhile isSpaceChar).reverse.dropWhile isSpaceChar).reverse⟩

/-- Model of Go `strings.Split(s, sep)` for a single-character separator:
splits at every occurrence, keeping empty fields. -/
def splitOnChar (sep : Char) : List Char → List (List Char)
  | [] => [[]]
  | c :: cs =>
    if c = sep then [] :: splitOnChar sep cs
    else
      match splitOnChar sep cs with
      | [] => [[c]]
      | p :: ps => (c :: p) :: ps

/-- Value of an ASCII decimal digit character, if it is one. -/
def digitToNat (c : Char) : Option Nat :=
  if '0' ≤ c ∧ c ≤ '9' then some (c.toNat - 48) else none

/-- Accumulating decimal parse of a digit string; fails on any non-digit. -/
def digitsToNatAux : List Char → Nat → Option Nat
  | [], acc => some acc
  | c :: cs, acc =>
    match digitToNat c with
    | none => none
    | some d => digitsToNatAux cs (acc * 10 + d)

/-- Model of Go `strconv.Atoi`: optional sign, then one or more decimal
digits and nothing else.  (Go additionally errors on 64-bit overflow; the
only caller range-checks the result to [0,59] afterwards, so overflow and
out-of-range inputs are observationally identical.) -/
def atoi (s : List Char) : Option Int :=
  match s with
  | [] => none
  | '+' :: rest =>
    match rest with
    | [] => none
    | _ => (digitsToNatAux rest 0).map fun n => (n : Int)
  | '-' :: rest =>
    match rest with
    | [] => none
    | _ => (digitsToNatAux rest 0).map fun n => -(n : Int)
  | _ => (digitsToNatAux s 0).map fun n => (n : Int)

/-- Go `parseHHMMToMin` (src/main.go): trim, split on ":", require exactly
two fields, parse hour in [0,23] and minute in [0,59], return `h*60+m`. -/
def parseHHMMToMin (s : String) : Option Int :=
  let t := goTrimSpace s
  match splitOnChar ':' t.toList with
  | [p1, p2] =>
    match atoi p1 with
    | none => none
    | some h =>
      if h < 0 ∨ 23 < h then none
      else
        match atoi p2 with
        | none => none
        | some m =>
          if m < 0 ∨ 59 < m then none
          else some (h * 60 + m)
  | _ => none

/-- Go `hoursToMin` (src/main.go): `int(math.Round(h * 60.0))`, rounding
half away from zero.  Computed on the exact rational `h = h.num / h.den`:
for `0 ≤ x = a/b` (with `b > 0`), `round(x) = ⌊x + 1/2⌋ = (2a+b) / (2b)`
in floored integer division; the negative case is symmetric.  The lemma
`hoursToMin_eq_round` below restates this as the textbook
`⌊h*60 + 1/2⌋` form. -/
def hoursToMin (h : ℚ) : Int :=
  let a := h.num * 60
  let b := (h.den : Int)
  if 0 ≤ a then (2 * a + b) / (2 * b) else -((2 * (-a) + b) / (2 * b))

/-- Decimal rendering of a nonnegative int, zero padded to two digits:
Go's `%02d` for the values in [0,99] the source formats this way. -/
def pad2 (n : Nat) : String := if n < 10 then "0" ++ toString n else toString n

/-- Go `fmtClock` (src/main.go): day offset by floored division, time of day
by floored remainder, rendered `HH:MM` with a ` (+Nd)` suffix when the day
offset is nonzero (`%d` renders a negative offset with a leading minus). -/
def fmtClock (min : Int) : String :=
  let days := floorDiv min 1440
  let m2 := (goMod min 1440).toNat
  let h := m2 / 60
  let m := m2 % 60
  if days = 0 then pad2 h ++ ":" ++ pad2 m
  else pad2 h ++ ":" ++ pad2 m ++ " (+" ++ toString days ++ "d)"

/-- Go `fmtHM` (src/main.go): `|min|` rendered as `{h}h{mm:02}m`. -/
def fmtHM (min : Int) : String :=
  let n := (if min < 0 then -min else min).toNat
  toString (n / 60) ++ "h" ++ pad2 (n % 60) ++ "m"

/-- Go `fmtRange` (src/main.go). -/
def fmtRange (aMin bMin : Int) : String := fmtClock aMin ++ " -> " ++ fmtClock bMin

/-- Floor of an integer fraction over ℚ is Euclidean integer division. -/
theorem floor_intCast_div (a b : Int) (hb : 0 < b) : ⌊(a : ℚ) / (b : ℚ)⌋ = a / b := by
  lift b to ℕ using hb.le
  push_cast
  exact Rat.floor_intCast_div_natCast a _

/-- The num/den computation in `hoursToMin` agrees with the textbook
round-half-away-from-zero of `h * 60` that Go's `math.Round` performs. -/
theorem hoursToMin_eq_round (h : ℚ) :
    hoursToMin h =
      if (0:ℚ) ≤ h * 60 then ⌊h * 60 + 1/2⌋ else -⌊-(h * 60) + 1/2⌋ := by
  have hb : (0:Int) < (h.den : Int) := by exact_mod_cast h.pos
  have hd : (0:ℚ) < ((h.den : Int) : ℚ) := by exact_mod_cast hb
  have hx : h * 60 = ((h.num * 60 : Int) : ℚ) / ((h.den : Int) : ℚ) := by
    conv_lhs => rw [← Rat.num_div_den h]
    push_cast
    rw [div_mul_eq_mul_div]
  have hcond : (0 ≤ h.num * 60) ↔ ((0:ℚ) ≤ h * 60) := by
    rw [hx]
    rw [le_div_iff₀ hd]
    constructor
    · intro hh
      exact_mod_cast by simpa using hh
    · intro hh
      exact_mod_cast by simpa using hh
  unfold hoursToMin
  dsimp only
  by_cases hc : (0:ℚ) ≤ h * 60
  · rw [if_pos (hcond.mpr hc), if_pos hc]
    have h1 : h * 60 + 1/2 =
        ((2 * (h.num * 60) + (h.den : Int) : Int) : ℚ) / ((2 * (h.den : Int) : Int) : ℚ) := by
      rw [hx]
      field_simp
      ring
    rw [h1, floor_intCast_div _ _ (by omega)]
  · rw [if_neg (fun hh => hc (hcond.mp hh)), if_neg hc]
    have h1 : -(h * 60) + 1/2 =
        ((2 * (-(h.num * 60)) + (h.den : Int) : Int) : ℚ) / ((2 * (h.den : Int) : Int) : ℚ) := by
      rw [hx]
      field_simp
      ring
    rw [h1, floor_intCast_div _ _ (by omega)]

/-- Rounding a nonnegative number of hours gives nonnegative minutes. -/
theorem hoursToMin_nonneg {q : ℚ} (hq : 0 ≤ q) : 0 ≤ hoursToMin q := by
  have h60 : (0:ℚ) ≤ q * 60 := by positivity
  rw [hoursToMin_eq_round, if_pos h60]
  exact Int.floor_nonneg.mpr (by linarith)

/-- A positive number of hours strictly below half a minute rounds to 0. -/
theorem hoursToMin_eq_zero {q : ℚ} (h0 : 0 < q) (h1 : q * 60 < 1/2) :
    hoursToMin q = 0 := by
  have h60 : (0:ℚ) ≤ q * 60 := by positivity
  rw [hoursToMin_eq_round, if_pos h60]
  rw [Int.floor_eq_zero_iff]
  constructor
  · linarith
  · linarith

/-- One constructor per `return nil, err` site of Go `compute`
(src/main.go, in source order). -/
inductive CalcError where
  | invalidStart
  | nonPositiveLength
  | invalidNormalStart
  | invalidNormalEnd
  | invalidNormalDay
  | nonPositiveMinRest
  | negativeOvertimeCap
deriving DecidableEq

/-- Scenario titles.  Scenarios 1 and 2 carry fixed strings in the source;
scenario 3's title interpolates `combineH` and `lengthH - combineH` with
`%.2f` (`fmt.Sprintf("Full day + %.2fh + %.2fh", ...)`); the embedding keeps
the two interpolated numbers rather than modelling float formatting. -/
inductive ScenTitle where
  | fullDayNoOvertime
  | fullDayPlusRelease
  | fullDayCombine (combinePart remainderPart : ℚ)
deriving DecidableEq

/-- Go `Scenario` (src/main.go).  String fields are exactly the source's;
the `...Min` fields record the integer minute values the source formats
into those strings. -/
structure Scenario where
  title : ScenTitle
  workHours : String
  releaseWindow : String
  totalWork : String
  releaseIncluded : String
  overtime : String
  nextDayHours : String
  workStartMin : Int
  workEndMin : Int
  incMin : Int
  otMin : Int
  nextStartMin : Int
  nextEndMin : Int

/-- Go `CalcResult` (src/main.go), with the formatted strings of the source
plus the integer minute values they are formatted from. -/
structure CalcResult where
  releaseStart : String
  releaseEnd : String
  releaseLen : String
  fullDay : String
  normalStart : String
  normalEnd : String
  normalLen : String
  minRest : String
  maxOvertime : String
  scenarios : List Scenario
  releaseStartMin : Int
  releaseEndMin : Int
  releaseLenMin : Int
  fullDayMin : Int
  normalStartMin : Int
  normalEndMin : Int
  normalLenMin : Int
  minRestMin : Int
  maxOvertimeMin : Int

/-- Go `calcNextDayStartAbs` (src/main.go). -/
def calcNextDayStartAbs (releaseEndAbs normalStartOfDayMin minRestMin : Int) : Int :=
  let earliest := releaseEndAbs + minRestMin
  let reEndDay := floorDiv releaseEndAbs 1440
  let nextDay := (reEndDay + 1) * 1440
  let baseline := nextDay + normalStartOfDayMin
  maxInt baseline earliest

/-- Post-validation body of Go `compute` (src/main.go lines 186-291): builds
the release window, the next-day window, the two unconditional scenarios, the
optional combine scenario, and the aggregate result.  Arguments are the
validated values `compute` has derived by this point.  Scenario 2's work
window is written uniformly as `workEnd2 - fullDayMin` (in the source the
unshifted branch uses `rsMin - fullDayMin` with `workEnd2 = rsMin`, which is
the same value); scenario 3's pre-cap fields are folded into the final `x`
(the source assigns them and overwrites them in the cap branch). -/
def buildResult (rsMin nsMin neMin minRestMin maxOvertimeMin releaseLenMin fullDayMin : Int)
    (combineH lengthH : ℚ) : CalcResult :=
  let normalLenMin := neMin - nsMin
  let reEndAbs := rsMin + releaseLenMin
  let releaseWindow := fmtRange rsMin reEndAbs
  let nextStart := calcNextDayStartAbs reEndAbs nsMin minRestMin
  let nextEnd := nextStart + normalLenMin
  let nextDayHours := fmtRange nextStart nextEnd
  -- 1) Full day (release included as much as possible)
  let requiredIncluded := maxInt 0 (releaseLenMin - maxOvertimeMin)
  let inc := minInt fullDayMin (maxInt requiredIncluded (minInt releaseLenMin fullDayMin))
  let pre := fullDayMin - inc
  let workStart := rsMin - pre
  let workEnd := rsMin + inc
  let ot1 := maxInt (releaseLenMin - inc) 0
  let scen1 : Scenario :=
    { title := .fullDayNoOvertime
      workHours := fmtRange workStart workEnd
      releaseWindow := releaseWindow
      totalWork := fmtRange workStart reEndAbs
      releaseIncluded := fmtHM inc
      overtime := fmtHM ot1
      nextDayHours := nextDayHours
      workStartMin := workStart
      workEndMin := workEnd
      incMin := inc
      otMin := ot1
      nextStartMin := nextStart
      nextEndMin := nextEnd }
  -- 2) Full day + release (all overtime), OT capped by pulling work later
  let workEnd2 := if releaseLenMin > maxOvertimeMin then reEndAbs - maxOvertimeMin else rsMin
  let workStart2 := workEnd2 - fullDayMin
  let ot2 := if releaseLenMin > maxOvertimeMin then maxOvertimeMin else releaseLenMin
  let scen2 : Scenario :=
    { title := .fullDayPlusRelease
      workHours := fmtRange workStart2 workEnd2
      releaseWindow := releaseWindow
      totalWork := fmtRange workStart2 reEndAbs
      releaseIncluded := fmtHM 0
      overtime := fmtHM ot2
      nextDayHours := nextDayHours
      workStartMin := workStart2
      workEndMin := workEnd2
      incMin := 0
      otMin := ot2
      nextStartMin := nextStart
      nextEndMin := nextEnd }
  -- 3) Full day + combine + rest (only if combine set)
  let x0 := minInt (minInt (hoursToMin combineH) releaseLenMin) fullDayMin
  let x := if releaseLenMin - x0 > maxOvertimeMin
    then minInt (maxInt (releaseLenMin - maxOvertimeMin) 0) fullDayMin
    else x0
  let pre3 := fullDayMin - x
  let workStart3 := rsMin - pre3
  let workEnd3 := rsMin + x
  let ot3 := releaseLenMin - x
  let scen3 : Scenario :=
    { title := .fullDayCombine combineH (lengthH - combineH)
      workHours := fmtRange workStart3 workEnd3
      releaseWindow := releaseWindow
      totalWork := fmtRange workStart3 reEndAbs
      releaseIncluded := fmtHM x
      overtime := fmtHM ot3
      nextDayHours := nextDayHours
      workStartMin := workStart3
      workEndMin := workEnd3
      incMin := x
      otMin := ot3
      nextStartMin := nextStart
      nextEndMin := nextEnd }
  let scenarios := if 0 ≤ combineH then [scen1, scen2, scen3] else [scen1, scen2]
  { releaseStart := fmtClock rsMin
    releaseEnd := fmtClock reEndAbs
    releaseLen := fmtHM releaseLenMin
    fullDay := fmtHM fullDayMin
    normalStart := fmtClock nsMin
    normalEnd := fmtClock neMin
    normalLen := fmtHM normalLenMin
    minRest := fmtHM minRestMin
    maxOvertime := fmtHM maxOvertimeMin
    scenarios := scenarios
    releaseStartMin := rsMin
    releaseEndMin := reEndAbs
    releaseLenMin := releaseLenMin
    fullDayMin := fullDayMin
    normalStartMin := nsMin
    normalEndMin := neMin
    normalLenMin := normalLenMin
    minRestMin := minRestMin
    maxOvertimeMin := maxOvertimeMin }

/-- Go `compute` (src/main.go): validations in source order, then the
scenario construction (`buildResult`). -/
def compute (startStr : String) (lengthH combineH fullH : ℚ)
    (normalStartStr normalEndStr : String) (minRestH maxOvertimeH : ℚ) :
    Except CalcError CalcResult :=
  match parseHHMMToMin startStr with
  | none => .error .invalidStart
  | some rsMin =>
    if lengthH ≤ 0 then .error .nonPositiveLength
    else
      match parseHHMMToMin normalStartStr with
      | none => .error .invalidNormalStart
      | some nsMin =>
        match parseHHMMToMin normalEndStr with
        | none => .error .invalidNormalEnd
        | some neMin =>
          if neMin - nsMin ≤ 0 then .error .invalidNormalDay
          else if hoursToMin minRestH ≤ 0 then .error .nonPositiveMinRest
          else if hoursToMin maxOvertimeH < 0 then .error .negativeOvertimeCap
          else
            .ok (buildResult rsMin nsMin neMin (hoursToMin minRestH)
              (hoursToMin maxOvertimeH) (hoursToMin lengthH)
              (if 0 < fullH then hoursToMin fullH else neMin - nsMin)
              combineH lengthH)

/-- The payload of a successful computation, if any. -/
def resultOf (e : Except CalcError CalcResult) : Option CalcResult :=
  match e with
  | .ok r => some r
  | .error _ => none

/-- The scenario list of a successful computation (empty on error). -/
def scenariosOf (e : Except CalcError CalcResult) : List Scenario :=
  match e with
  | .ok r => r.scenarios
  | .error _ => []

/-- Inversion: a successful `compute` means every validation passed and the
result is the `buildResult` of the parsed and rounded inputs. -/
theorem compute_ok_inv {startStr : String} {lengthH combineH fullH : ℚ}
    {normalStartStr normalEndStr : String} {minRestH maxOvertimeH : ℚ} {res : CalcResult}
    (h : compute startStr lengthH combineH fullH normalStartStr normalEndStr minRestH maxOvertimeH
          = .ok res) :
    ∃ rs ns ne, parseHHMMToMin startStr = some rs ∧ ¬ lengthH ≤ 0 ∧
      parseHHMMToMin normalStartStr = some ns ∧ parseHHMMToMin normalEndStr = some ne ∧
      ¬ ne - ns ≤ 0 ∧ ¬ hoursToMin minRestH ≤ 0 ∧ ¬ hoursToMin maxOvertimeH < 0 ∧
      res = buildResult rs ns ne (hoursToMin minRestH) (hoursToMin maxOvertimeH)
              (hoursToMin lengthH) (if 0 < fullH then hoursToMin fullH else ne - ns)
              combineH lengthH := by
  unfold compute at h
  split at h
  · exact Except.noConfusion h
  next rs hrs =>
    split at h
    · exact Except.noConfusion h
    next hlen =>
      split at h
      · exact Except.noConfusion h
      next ns hns =>
        split at h
        · exact Except.noConfusion h
        next ne hne =>
          split at h
          · exact Except.noConfusion h
          next hday =>
            split at h
            · exact Except.noConfusion h
            next hrest =>
              split at h
              · exact Except.noConfusion h
              next hcap =>
                injection h with h
                exact ⟨rs, ns, ne, hrs, hlen, hns, hne, hday, hrest, hcap, h.symm⟩

/-- Go `minInt` is `min`. -/
theorem minInt_eq (a b : Int) : minInt a b = min a b := by
  unfold minInt
  split <;> omega

/-- Go `maxInt` is `max`. -/
theorem maxInt_eq (a b : Int) : maxInt a b = max a b := by
  unfold maxInt
  split <;> omega

/-- Core overtime bounds on the scenarios built by `buildResult`. -/
theorem buildResult_ot_bounds {rs ns ne mr mo rl fd : Int} {cH lH : ℚ}
    (hmo : 0 ≤ mo) (hrl : 0 ≤ rl) (hfd : 0 ≤ fd) {s : Scenario}
    (hs : s ∈ (buildResult rs ns ne mr mo rl fd cH lH).scenarios) :
    0 ≤ s.otMin ∧ s.otMin ≤ max mo rl := by
  simp only [buildResult] at hs
  split at hs
  · next hc =>
    have hcb : 0 ≤ hoursToMin cH := hoursToMin_nonneg hc
    simp only [List.mem_cons, List.not_mem_nil, or_false] at hs
    rcases hs with rfl | rfl | rfl <;>
      simp only [minInt_eq, maxInt_eq] <;> (try split) <;> omega
  · next hc =>
    simp only [List.mem_cons, List.not_mem_nil, or_false] at hs
    rcases hs with rfl | rfl <;>
      simp only [minInt_eq, maxInt_eq] <;> (try split) <;> omega

/-- First scenario computed for the spec's concrete example
(release 18:30 for 4h, normal day 09:00-17:30, min rest 11h, cap 4h). -/
def scenA1830 : Scenario :=
  { title := .fullDayNoOvertime
    workHours := "14:00 -> 22:30"
    releaseWindow := "18:30 -> 22:30"
    totalWork := "14:00 -> 22:30"
    releaseIncluded := "4h00m"
    overtime := "0h00m"
    nextDayHours := "09:30 (+1d) -> 18:00 (+1d)"
    workStartMin := 840
    workEndMin := 1350
    incMin := 240
    otMin := 0
    nextStartMin := 2010
    nextEndMin := 2520 }

/-- Second scenario computed for the spec's concrete example. -/
def scenB1830 : Scenario :=
  { title := .fullDayPlusRelease
    workHours := "10:00 -> 18:30"
    releaseWindow := "18:30 -> 22:30"
    totalWork := "10:00 -> 22:30"
    releaseIncluded := "0h00m"
    overtime := "4h00m"
    nextDayHours := "09:30 (+1d) -> 18:00 (+1d)"
    workStartMin := 600
    workEndMin := 1110
    incMin := 0
    otMin := 240
    nextStartMin := 2010
    nextEndMin := 2520 }

/-- Full result computed for the spec's concrete example. -/
def res1830 : CalcResult :=
  { releaseStart := "18:30"
    releaseEnd := "22:30"
    releaseLen := "4h00m"
    fullDay := "8h30m"
    normalStart := "09:00"
    normalEnd := "17:30"
    normalLen := "8h30m"
    minRest := "11h00m"
    maxOvertime := "4h00m"
    scenarios := [scenA1830, scenB1830]
    releaseStartMin := 1110
    releaseEndMin := 1350
    releaseLenMin := 240
    fullDayMin := 510
    normalStartMin := 540
    normalEndMin := 1050
    normalLenMin := 510
    minRestMin := 660
    maxOvertimeMin := 240 }

/-- The embedded `compute` on the spec's concrete example evaluates to
exactly `res1830`. -/
theorem compute_res1830 :
    compute "18:30" 4 (-1) 0 "09:00" "17:30" 11 4 = .ok res1830 := rfl

/-- C1: on every input on which `compute` succeeds, every scenario's
overtime minutes are nonnegative and at most
`max(maxOvertimeMinutes, releaseLengthMinutes)`, the rounded-to-minute
values of the max-overtime and release-length inputs. -/
theorem compute_overtime_bounds (startStr : String) (lengthH combineH fullH : ℚ)
    (normalStartStr normalEndStr : String) (minRestH maxOvertimeH : ℚ) (res : CalcResult)
    (h : compute startStr lengthH combineH fullH normalStartStr normalEndStr minRestH maxOvertimeH
          = .ok res) :
    ∀ s ∈ res.scenarios,
      0 ≤ s.otMin ∧ s.otMin ≤ max (hoursToMin maxOvertimeH) (hoursToMin lengthH) := by
  obtain ⟨rs, ns, ne, hrs, hlen, hns, hne, hday, hrest, hcap, hres⟩ := compute_ok_inv h
  subst hres
  intro s hs
  refine buildResult_ot_bounds ?_ ?_ ?_ hs
  · omega
  · exact hoursToMin_nonneg (le_of_lt (lt_of_not_le hlen))
  · split
    · next hf => exact hoursToMin_nonneg (le_of_lt hf)
    · omega

/-- Witness for C1 at the spec's concrete example, first scenario. -/
theorem compute_overtime_bounds_witness :
    0 ≤ scenA1830.otMin ∧ scenA1830.otMin ≤ max (hoursToMin 4) (hoursToMin 4) :=
  compute_overtime_bounds "18:30" 4 (-1) 0 "09:00" "17:30" 11 4 res1830 compute_res1830
    scenA1830 (List.mem_cons_self _ _)

/-- C2: in Scenario B (the second scenario, "Full day + release (Overtime)"),
if the rounded release length is at most the rounded overtime cap then the
work end equals the release start (no cap shift); otherwise the work end is
`maxOvertimeMinutes` before the release end, the work start is a full day
before the work end, and the overtime equals `maxOvertimeMinutes`. -/
theorem scenarioB_cap (startStr : String) (lengthH combineH fullH : ℚ)
    (normalStartStr normalEndStr : String) (minRestH maxOvertimeH : ℚ) (res : CalcResult)
    (h : compute startStr lengthH combineH fullH normalStartStr normalEndStr minRestH maxOvertimeH
          = .ok res)
    (s : Scenario) (hs : res.scenarios[1]? = some s) :
    (hoursToMin lengthH ≤ hoursToMin maxOvertimeH → s.workEndMin = res.releaseStartMin) ∧
    (hoursToMin maxOvertimeH < hoursToMin lengthH →
      res.releaseEndMin - s.workEndMin = hoursToMin maxOvertimeH ∧
      s.workStartMin = s.workEndMin - res.fullDayMin ∧
      s.otMin = hoursToMin maxOvertimeH) := by
  obtain ⟨rs, ns, ne, hrs, hlen, hns, hne, hday, hrest, hcap, hres⟩ := compute_ok_inv h
  subst hres
  simp only [buildResult] at hs ⊢
  split at hs <;>
  · simp only [List.getElem?_cons_succ, List.getElem?_cons_zero, Option.some.injEq] at hs
    subst hs
    dsimp only
    constructor
    · intro hle
      simp only [if_neg (by omega : ¬ hoursToMin lengthH > hoursToMin maxOvertimeH)]
    · intro hlt
      simp only [if_pos (by omega : hoursToMin lengthH > hoursToMin maxOvertimeH)]
      exact ⟨by omega, trivial, trivial⟩

/-- Witness for C2 at the spec's concrete example (release length equals
the cap, so no shift: work end is the release start). -/
theorem scenarioB_cap_witness : scenB1830.workEndMin = res1830.releaseStartMin :=
  (scenarioB_cap "18:30" 4 (-1) 0 "09:00" "17:30" 11 4 res1830 compute_res1830
    scenB1830 rfl).1 (le_refl _)

/-- C3: on every input on which `compute` succeeds, the next-day start is
`max(releaseEnd + minRest, (floor(releaseEnd/1440) + 1)*1440 + normalStart)`
(in absolute minutes), hence at least the rest-earliest time and at least
the following calendar day's normal start, and the next-day end is the
next-day start plus the normal-day length; this holds for the next-day
window carried by every scenario. -/
theorem nextDayStart_spec (startStr : String) (lengthH combineH fullH : ℚ)
    (normalStartStr normalEndStr : String) (minRestH maxOvertimeH : ℚ) (res : CalcResult)
    (h : compute startStr lengthH combineH fullH normalStartStr normalEndStr minRestH maxOvertimeH
          = .ok res) :
    ∀ s ∈ res.scenarios,
      s.nextStartMin = max (res.releaseEndMin + res.minRestMin)
          ((res.releaseEndMin / 1440 + 1) * 1440 + res.normalStartMin) ∧
      res.releaseEndMin + res.minRestMin ≤ s.nextStartMin ∧
      (res.releaseEndMin / 1440 + 1) * 1440 + res.normalStartMin ≤ s.nextStartMin ∧
      s.nextEndMin = s.nextStartMin + res.normalLenMin := by
  obtain ⟨rs, ns, ne, hrs, hlen, hns, hne, hday, hrest, hcap, hres⟩ := compute_ok_inv h
  subst hres
  intro s hs
  simp only [buildResult] at hs ⊢
  split at hs <;>
  · simp only [List.mem_cons, List.not_mem_nil, or_false] at hs
    rcases hs with rfl | rfl | rfl <;>
      · dsimp only
        unfold calcNextDayStartAbs
        rw [floorDiv_1440, maxInt_eq]
        refine ⟨by omega, by omega, by omega, by omega⟩

/-- Witness for C3 at the spec's concrete example, first scenario. -/
theorem nextDayStart_spec_witness :
    scenA1830.nextStartMin = max (res1830.releaseEndMin + res1830.minRestMin)
        ((res1830.releaseEndMin / 1440 + 1) * 1440 + res1830.normalStartMin) ∧
    res1830.releaseEndMin + res1830.minRestMin ≤ scenA1830.nextStartMin ∧
    (res1830.releaseEndMin / 1440 + 1) * 1440 + res1830.normalStartMin ≤ scenA1830.nextStartMin ∧
    scenA1830.nextEndMin = scenA1830.nextStartMin + res1830.normalLenMin :=
  nextDayStart_spec "18:30" 4 (-1) 0 "09:00" "17:30" 11 4 res1830 compute_res1830
    scenA1830 (List.mem_cons_self _ _)

/-- C9: on every input on which `compute` succeeds, every scenario carries
the release-window string and the next-day-hours string computed once from
the normalized inputs (so all scenarios carry identical copies of both). -/
theorem shared_windows (startStr : String) (lengthH combineH fullH : ℚ)
    (normalStartStr normalEndStr : String) (minRestH maxOvertimeH : ℚ) (res : CalcResult)
    (h : compute startStr lengthH combineH fullH normalStartStr normalEndStr minRestH maxOvertimeH
          = .ok res) :
    ∀ s ∈ res.scenarios,
      s.releaseWindow = fmtRange res.releaseStartMin res.releaseEndMin ∧
      s.nextDayHours =
        fmtRange (calcNextDayStartAbs res.releaseEndMin res.normalStartMin res.minRestMin)
          (calcNextDayStartAbs res.releaseEndMin res.normalStartMin res.minRestMin
            + res.normalLenMin) := by
  obtain ⟨rs, ns, ne, hrs, hlen, hns, hne, hday, hrest, hcap, hres⟩ := compute_ok_inv h
  subst hres
  intro s hs
  simp only [buildResult] at hs ⊢
  split at hs <;>
  · simp only [List.mem_cons, List.not_mem_nil, or_false] at hs
    rcases hs with rfl | rfl | rfl <;> exact ⟨rfl, rfl⟩

/-- Witness for C9 at the spec's concrete example, second scenario. -/
theorem shared_windows_witness :
    scenB1830.releaseWindow = fmtRange res1830.releaseStartMin res1830.releaseEndMin ∧
    scenB1830.nextDayHours =
      fmtRange (calcNextDayStartAbs res1830.releaseEndMin res1830.normalStartMin res1830.minRestMin)
        (calcNextDayStartAbs res1830.releaseEndMin res1830.normalStartMin res1830.minRestMin
          + res1830.normalLenMin) :=
  shared_windows "18:30" 4 (-1) 0 "09:00" "17:30" 11 4 res1830 compute_res1830
    scenB1830 (List.mem_cons_of_mem _ (List.mem_cons_self _ _))

set_option maxRecDepth 4000 in
set_option maxHeartbeats 4000000 in
/-- Exhaustive check of the clock round-trip on one day of minutes,
split by hour and minute components. -/
theorem roundtrip_all_minutes : ∀ h : Fin 24, ∀ m : Fin 60,
    parseHHMMToMin (fmtClock (Int.ofNat (h.val * 60 + m.val)))
      = some (Int.ofNat (h.val * 60 + m.val)) := by
  decide

/-- C6: for every minute value in [0, 1439], `fmtClock` emits a plain
`HH:MM` (no day-offset suffix, since the day offset is 0 on this range)
and `parseHHMMToMin` parses it back to the same value. -/
theorem fmtClock_roundtrip (n : Int) (h0 : 0 ≤ n) (h1 : n ≤ 1439) :
    parseHHMMToMin (fmtClock n) = some n := by
  have key := roundtrip_all_minutes ⟨n.toNat / 60, by omega⟩ ⟨n.toNat % 60, by omega⟩
  have hn : Int.ofNat (n.toNat / 60 * 60 + n.toNat % 60) = n := by
    rw [Int.ofNat_eq_natCast]
    omega
  rw [hn] at key
  exact key

/-- Witness for C6 at 09:30 (570 minutes). -/
theorem fmtClock_roundtrip_witness : parseHHMMToMin (fmtClock 570) = some 570 :=
  fmtClock_roundtrip 570 (by decide) (by decide)

/-- C7: when the parsed normal-day end does not strictly follow the parsed
normal-day start, `compute` rejects the input: it returns a validation error
and no result on every such input, and whenever the validations that precede
the normal-day check pass (release start parses, release length positive)
the error is precisely the invalid-normal-day case. -/
theorem invalidNormalDay_rejects (startStr : String) (lengthH combineH fullH : ℚ)
    (normalStartStr normalEndStr : String) (minRestH maxOvertimeH : ℚ) (ns ne : Int)
    (hns : parseHHMMToMin normalStartStr = some ns)
    (hne : parseHHMMToMin normalEndStr = some ne)
    (hday : ne - ns ≤ 0) :
    (∃ e, compute startStr lengthH combineH fullH normalStartStr normalEndStr minRestH
            maxOvertimeH = .error e) ∧
    (∀ rs, parseHHMMToMin startStr = some rs → ¬ lengthH ≤ 0 →
      compute startStr lengthH combineH fullH normalStartStr normalEndStr minRestH maxOvertimeH
        = .error .invalidNormalDay) := by
  constructor
  · unfold compute
    split
    · exact ⟨_, rfl⟩
    · split
      · exact ⟨_, rfl⟩
      · simp only [hns, hne, if_pos hday]
        exact ⟨_, rfl⟩
  · intro rs hrs hlen
    unfold compute
    simp only [hrs, hns, hne, if_neg hlen, if_pos hday]

/-- Witness for C7 at the spec's concrete validation case
(normal day 17:00 -> 09:00 with otherwise valid inputs). -/
theorem invalidNormalDay_rejects_witness :
    compute "18:30" 4 (-1) 0 "17:00" "09:00" 11 4 = .error .invalidNormalDay :=
  (invalidNormalDay_rejects "18:30" 4 (-1) 0 "17:00" "09:00" 11 4 1020 540
    rfl rfl (by decide)).2 1110 rfl (by norm_num)

/-- C8: `compute` is deterministic; two invocations on identical argument
tuples return identical values (the embedding of the Go function is a pure
function of its arguments). -/
theorem compute_deterministic (s1 s2 : String) (l1 l2 c1 c2 f1 f2 : ℚ)
    (ns1 ns2 ne1 ne2 : String) (mr1 mr2 mo1 mo2 : ℚ)
    (h1 : s1 = s2) (h2 : l1 = l2) (h3 : c1 = c2) (h4 : f1 = f2)
    (h5 : ns1 = ns2) (h6 : ne1 = ne2) (h7 : mr1 = mr2) (h8 : mo1 = mo2) :
    compute s1 l1 c1 f1 ns1 ne1 mr1 mo1 = compute s2 l2 c2 f2 ns2 ne2 mr2 mo2 := by
  subst_vars
  rfl

/-- Witness for C8 at the spec's concrete example. -/
theorem compute_deterministic_witness :
    compute "18:30" 4 (-1) 0 "09:00" "17:30" 11 4
      = compute "18:30" 4 (-1) 0 "09:00" "17:30" 11 4 :=
  compute_deterministic "18:30" "18:30" 4 4 (-1) (-1) 0 0 "09:00" "09:00" "17:30" "17:30"
    11 11 4 4 rfl rfl rfl rfl rfl rfl rfl rfl

/-- C10: the release length is validated on the raw decimal-hours value
before rounding while minimum rest is validated after rounding: a positive
release length below half a minute still succeeds, with a zero-minute
release length and a degenerate release window (end = start), while the
same value supplied as minimum rest is rejected with the
non-positive-min-rest validation error. -/
theorem length_raw_rest_rounded (startStr : String) (q lengthH combineH fullH : ℚ)
    (normalStartStr normalEndStr : String) (minRestH maxOvertimeH : ℚ) (rs ns ne : Int)
    (hq0 : 0 < q) (hq1 : q * 60 < 1/2)
    (hrs : parseHHMMToMin startStr = some rs)
    (hlen : 0 < lengthH)
    (hns : parseHHMMToMin normalStartStr = some ns)
    (hne : parseHHMMToMin normalEndStr = some ne)
    (hday : 0 < ne - ns)
    (hrest : 0 < hoursToMin minRestH)
    (hcap : 0 ≤ hoursToMin maxOvertimeH) :
    ((resultOf (compute startStr q combineH fullH normalStartStr normalEndStr minRestH
        maxOvertimeH)).map fun r => (r.releaseLenMin, r.releaseEndMin - r.releaseStartMin))
      = some (0, 0) ∧
    compute startStr lengthH combineH fullH normalStartStr normalEndStr q maxOvertimeH
      = .error .nonPositiveMinRest := by
  have hq : hoursToMin q = 0 := hoursToMin_eq_zero hq0 hq1
  constructor
  · have hok : compute startStr q combineH fullH normalStartStr normalEndStr minRestH
        maxOvertimeH = .ok (buildResult rs ns ne (hoursToMin minRestH)
          (hoursToMin maxOvertimeH) (hoursToMin q)
          (if 0 < fullH then hoursToMin fullH else ne - ns) combineH q) := by
      unfold compute
      simp only [hrs, hns, hne, if_neg (not_le.mpr hq0), if_neg (by omega : ¬ ne - ns ≤ 0),
        if_neg (by omega : ¬ hoursToMin minRestH ≤ 0),
        if_neg (by omega : ¬ hoursToMin maxOvertimeH < 0)]
    rw [hok]
    unfold resultOf
    simp only [Option.map, buildResult]
    rw [hq]
    norm_num
  · unfold compute
    simp only [hrs, hns, hne, if_neg (not_le.mpr hlen), if_neg (by omega : ¬ ne - ns ≤ 0),
      if_pos (by omega : hoursToMin q ≤ 0)]

/-- Witness for C10 with a release length / rest of 1/200 of an hour
(0.3 minutes, rounding to 0). -/
theorem length_raw_rest_rounded_witness :
    ((resultOf (compute "18:30" (1/200) (-1) 0 "09:00" "17:30" 11
        4)).map fun r => (r.releaseLenMin, r.releaseEndMin - r.releaseStartMin))
      = some (0, 0) ∧
    compute "18:30" 4 (-1) 0 "09:00" "17:30" (1/200) 4
      = .error .nonPositiveMinRest :=
  length_raw_rest_rounded "18:30" (1/200) 4 (-1) 0 "09:00" "17:30" 11 4 1110 540 1050
    (by norm_num) (by norm_num) rfl (by norm_num) rfl rfl (by norm_num) (by decide) (by decide)

/-- C4 counterexample: at the claim's concrete input the scenarios' work-hour
strings are "14:00 -> 22:30" and "10:00 -> 18:30"; the claim's Scenario A
value "14:00 -> 18:30" is wrong (the full-day scenario counts the included
release toward the work window, so work end = release start + included). -/
theorem concreteExample_counterexample :
    (scenariosOf (compute "18:30" 4 (-1) 0 "09:00" "17:30" 11 4)).map Scenario.workHours
      ≠ ["14:00 -> 18:30", "10:00 -> 18:30"] := by
  decide

/-- C4 (amended): at the spec's concrete input, `compute` succeeds with
normal-day length 8h30m, full day 8h30m, release window 18:30 -> 22:30,
Scenario A included 4h00m / overtime 0h00m / work hours 14:00 -> 22:30,
Scenario B work hours 10:00 -> 18:30 (no cap shift) / overtime 4h00m,
and next-day window 09:30 -> 18:00 on the following day. -/
theorem concreteExample_values :
    ((resultOf (compute "18:30" 4 (-1) 0 "09:00" "17:30" 11 4)).map fun r =>
      (r.normalLen, r.fullDay, r.releaseStart, r.releaseEnd,
        r.scenarios.map fun s => (s.workHours, s.releaseIncluded, s.overtime, s.nextDayHours)))
      = some ("8h30m", "8h30m", "18:30", "22:30",
          [("14:00 -> 22:30", "4h00m", "0h00m", "09:30 (+1d) -> 18:00 (+1d)"),
           ("10:00 -> 18:30", "0h00m", "4h00m", "09:30 (+1d) -> 18:00 (+1d)")]) := rfl

/-- C5: at the spec's concrete combine case, `compute` succeeds with a full
day of 8h00m and a third (user-split) scenario with included minutes 120
(2h, the clamp of combine=2h to release 5h and full day 8h), overtime 180
(3h, under the 4h cap so no re-derivation), work window 14:00 -> 22:00
(840 to 1320 minutes), and total work 14:00 -> 01:00 on the next day. -/
theorem combineExample_values :
    ((resultOf (compute "20:00" 5 2 0 "09:00" "17:00" 11 4)).map fun r =>
      (r.fullDay, (r.scenarios.map fun s =>
        (s.incMin, s.otMin, s.workStartMin, s.workEndMin, s.workHours, s.totalWork))[2]?))
      = some ("8h00m", some (120, 180, 840, 1320, "14:00 -> 22:00", "14:00 -> 01:00 (+1d)")) := rfl
